import Mathlib

/-!
Verification of the Unvanquished Tray server-browser core
(`unvtray/ping.py`, `unvtray/server.py`, `unvtray/servers.py`).

Shallow embedding conventions:
* Python `float` values that can be `float("inf")` are modelled as
  `Option ℚ`, where `none` stands for positive infinity and `some q`
  for the finite value `q`.
* Wall-clock time (`time.time()`) is passed explicitly as a rational
  parameter `now` to every function that reads the clock.
* Raised exceptions become `Except String` results (or an extra
  `Option String` component when a Python method mutates state before
  raising, since those mutations persist past the exception).
* Network traffic is an explicit input: master responses are byte
  lists (`List Nat`), game-server status responses are `Option
  (List Char)` with `none` standing for a socket error/timeout.
-/

namespace Unvtray

/-- Minimum on Python floats with `none` as infinity: `min(self._min, s)`. -/
def minInf : Option ℚ → ℚ → Option ℚ
  | none, s => some s
  | some m, s => some (if m ≤ s then m else s)

/-- `unvtray/ping.py` `Ping`: `_duration`, `_register` (list of
`(timestamp, sample)` pairs) and `_min` (infinity when no sample was
ever recorded). -/
structure Ping where
  duration : ℚ
  reg : List (ℚ × ℚ)
  min : Option ℚ
deriving DecidableEq

/-- `Ping.__init__` with `average_over_seconds=60`. -/
def Ping.init (averageOverSeconds : ℚ) : Ping :=
  { duration := averageOverSeconds, reg := [], min := none }

/-- The counting loop of `Ping._clear_old`: the number of records
older than the threshold `now - duration`; the loop breaks at the
first recent record, so it measures the outdated prefix. -/
def Ping.numOutdated (p : Ping) (now : ℚ) : Nat :=
  (p.reg.takeWhile (fun e => decide (e.1 < now - p.duration))).length

/-- `Ping._clear_old`: drop the outdated prefix, but always keep the
latest record (`self._register[-1:]`) when every record is outdated. -/
def Ping.clearOld (p : Ping) (now : ℚ) : Ping :=
  if p.reg = [] then p
  else if p.numOutdated now = 0 then p
  else if p.reg.length ≤ p.numOutdated now then { p with reg := p.reg.drop (p.reg.length - 1) }
  else { p with reg := p.reg.drop (p.numOutdated now) }

/-- `Ping.register`: `None` clears the record list (the minimum is
untouched); a sample appends `(now, sample)` and updates `_min`. -/
def Ping.register (p : Ping) (now : ℚ) (responseTimeSeconds : Option ℚ) : Ping :=
  match responseTimeSeconds with
  | none => { p with reg := [] }
  | some s => { p with reg := p.reg ++ [(now, s)], min := minInf p.min s }

/-- `Ping.clear`: `self.register(None)`. -/
def Ping.clearRecords (p : Ping) : Ping :=
  p.register 0 none

/-- `Ping.mvavg`: evict old records, then the arithmetic mean of the
remaining samples, or infinity (`none`) when the record list is empty. -/
def Ping.mvavg (p : Ping) (now : ℚ) : Option ℚ :=
  let q := p.clearOld now
  if q.reg = [] then none
  else some ((q.reg.map Prod.snd).sum / (q.reg.length : ℚ))

/-- A parsed server configuration: the key/value pairs in response
order. Python builds a `dict` from these, so a lookup is resolved by
the *last* pair carrying the key. -/
abbrev Config := List (String × String)

/-- `dict` lookup over the pair list: the last binding wins. -/
def cfgGet (cfg : Config) (k : String) : Option String :=
  match cfg with
  | [] => none
  | (k', v) :: rest =>
    match cfgGet rest k with
    | some v' => some v'
    | none => if k' = k then some v else none

/-- `(spectators, a_players, h_players, a_bots, h_bots)`. -/
abbrev Stats := Nat × Nat × Nat × Nat × Nat

/-- The slot loop of `Server.player_stats`: `for skill, team in zip(B, P)`. -/
def countSlots : Stats → List (Char × Char) → Except String Stats
  | acc, [] => .ok acc
  | (spec, a, h, ab, hb), (skill, team) :: rest =>
    if skill = '-' then
      if team = '-' then countSlots (spec, a, h, ab, hb) rest
      else if team = '0' then countSlots (spec + 1, a, h, ab, hb) rest
      else if team = '1' then countSlots (spec, a + 1, h, ab, hb) rest
      else if team = '2' then countSlots (spec, a, h + 1, ab, hb) rest
      else .error "Bad team identifier for player."
    else
      if team = '1' then countSlots (spec, a, h, ab + 1, hb) rest
      else if team = '2' then countSlots (spec, a, h, ab, hb + 1) rest
      else .error "Bad team identifier for bot."

/-- Body of `Server.player_stats` run under `_valid_or`: a `KeyError`
on `B`/`P`, a length mismatch or a bad team character become errors
that the decorator turns into the zero-filled default. -/
def playerStatsChecked (cfg : Config) : Except String Stats :=
  match cfgGet cfg "B" with
  | none => .error "KeyError B"
  | some bField =>
    match cfgGet cfg "P" with
    | none => .error "KeyError P"
    | some pField =>
      if bField.length ≠ pField.length then
        .error "Lengths of bot and player states do not match."
      else countSlots (0, 0, 0, 0, 0) (bField.data.zip pField.data)

/-- Python truthiness of `self._config`: `None` and the empty dict are
falsy. -/
def truthyConfig : Option Config → Bool
  | none => false
  | some cfg => decide (cfg ≠ [])

/-- `unvtray/server.py` `Server`. -/
structure Server where
  host : String
  port : Nat
  config : Option Config
  ping : Ping
  lastRefresh : ℚ
  lastRefreshError : Option String
deriving DecidableEq

/-- `Server.__init__` (the `Ping` default window is 60 seconds). -/
def Server.init (host : String) (port : Nat) : Server :=
  { host := host, port := port, config := none, ping := Ping.init 60,
    lastRefresh := 0, lastRefreshError := none }

/-- `Server.__eq__`: equality of host and port only. -/
def Server.sameAddress (s other : Server) : Bool :=
  decide (s.host = other.host ∧ s.port = other.port)

/-- `Server.__hash__`: `hash(self._host) ^ hash(self._port)`, with the
string hash abstracted as `f` and `hash(port) = port` for 16-bit ports. -/
def Server.hashWith (f : String → Nat) (s : Server) : Nat :=
  Nat.xor (f s.host) s.port

/-- `Server.address`. -/
def Server.address (s : Server) : String :=
  s.host ++ ":" ++ toString s.port

/-- `Server.responsive`: `True` under `_valid_or(False)`, so exactly
the truthiness of the configuration. -/
def Server.responsive (s : Server) : Bool :=
  truthyConfig s.config

/-- `Server.age`: time since last successful refresh; infinity while
`_last_refresh` is still the falsy `0`. -/
def Server.age (s : Server) (now : ℚ) : Option ℚ :=
  if s.lastRefresh ≠ 0 then some (now - s.lastRefresh) else none

/-- `Server.ping`: the moving average of the owned `Ping`. -/
def Server.pingAt (s : Server) (now : ℚ) : Option ℚ :=
  s.ping.mvavg now

/-- `Server.player_stats` with its `_valid_or((0,) * 5)` decorator. -/
def Server.playerStats (s : Server) : Stats :=
  if truthyConfig s.config then
    match s.config with
    | some cfg =>
      match playerStatsChecked cfg with
      | .ok v => v
      | .error _ => (0, 0, 0, 0, 0)
    | none => (0, 0, 0, 0, 0)
  else (0, 0, 0, 0, 0)

/-- `Server.num_players`: `sum(self.player_stats[:3])`. -/
def Server.numPlayers (s : Server) : Nat :=
  s.playerStats.1 + s.playerStats.2.1 + s.playerStats.2.2.1

/-- `Server.num_playing`: `sum(self.player_stats[1:3])`. -/
def Server.numPlaying (s : Server) : Nat :=
  s.playerStats.2.1 + s.playerStats.2.2.1

/-- `Server.num_spectating`: `self.player_stats[0]`. -/
def Server.numSpectating (s : Server) : Nat :=
  s.playerStats.1

/-- `Server.name` with its `_valid_or(fallback=address)` decorator
(a missing `sv_hostname` key raises, yielding the fallback). -/
def Server.name (s : Server) : String :=
  if truthyConfig s.config then
    match s.config with
    | some cfg =>
      match cfgGet cfg "sv_hostname" with
      | some v => v
      | none => s.address
    | none => s.address
  else s.address

/-- `Server.map_name` with its `_valid_or("unknown")` decorator. -/
def Server.mapName (s : Server) : String :=
  if truthyConfig s.config then
    match s.config with
    | some cfg =>
      match cfgGet cfg "mapname" with
      | some v => v
      | none => "unknown"
    | none => "unknown"
  else "unknown"

/-- The out-of-band marker `b"\xff\xff\xff\xff"`, as characters. -/
def oobMarker : List Char := [Char.ofNat 255, Char.ofNat 255, Char.ofNat 255, Char.ofNat 255]

/-- `R_GET_STATUS = QUERY_PREFIX + b"statusResponse\n" + RECORD_SEP`. -/
def rGetStatus : List Char := oobMarker ++ "statusResponse".data ++ ['\n', '\\']

/-- `bytes.splitlines(...)` followed by `pop(0)`, which raises
`IndexError` (`none`) when the stripped response is empty; otherwise
the first line, delimited by a newline or carriage return. -/
def firstLine : List Char → Option (List Char)
  | [] => none
  | cs => some (cs.takeWhile (fun c => decide (c ≠ '\n' ∧ c ≠ '\r')))

/-- `bytes.split(RECORD_SEP)`: split on the backslash, keeping empty
pieces, so the result always has one more piece than separators. -/
def splitSep : List Char → List (List Char)
  | [] => [[]]
  | c :: rest =>
    if c = '\\' then [] :: splitSep rest
    else
      match splitSep rest with
      | h :: t => (c :: h) :: t
      | [] => [[c]]

/-- The dict comprehension pairing consecutive fields into key/value
entries (the field count was checked to be even). -/
def toPairs : List (List Char) → Config
  | k :: v :: rest => (String.mk k, String.mk v) :: toPairs rest
  | _ => []

/-- `Server.refresh`. `resp` is the outcome of `con.recv`: `none` for
a socket exception (raised before the ping is registered), otherwise
the received datagram; `elapsed` is the measured round-trip time.
Returns the mutated server plus the raised error message, if any —
mutations made before a Python `raise` persist. -/
def Server.refresh (s : Server) (now elapsed : ℚ) (resp : Option (List Char)) :
    Server × Option String :=
  match resp with
  | none => (s, some "timed out")
  | some response =>
    let s := { s with ping := s.ping.register now (some elapsed) }
    if response = [] then (s, some "no response")
    else if ¬ rGetStatus.isPrefixOf response then (s, some "bad response header")
    else
      let body := response.drop rGetStatus.length
      match firstLine body with
      | none => (s, some "IndexError")
      | some sec =>
        let fields := splitSep sec
        if fields.length % 2 = 1 then
          (s, some "bad number of separators in config string section")
        else ({ s with config := some (toPairs fields), lastRefresh := now }, none)

/-- `Server.refresh_or_reset`: on any failure the configuration is
dropped, the ping records are cleared (`self._ping.clear()`), and the
error string is kept for log deduplication. -/
def Server.refreshOrReset (s : Server) (now elapsed : ℚ) (resp : Option (List Char)) : Server :=
  match s.refresh now elapsed resp with
  | (s', none) => { s' with lastRefreshError := none }
  | (s', some err) =>
    { s' with config := none, ping := s'.ping.register now none, lastRefreshError := some err }

/-- `unvtray/servers.py` `ServerList`, with the known-server set as a
list in iteration order. -/
structure ServerList where
  host : String
  port : Nat
  maxServers : Nat
  updateTime : ℚ
  refreshTime : ℚ
  servers : List Server
  lastUpdate : ℚ
  lastUpdateError : Option String
  lastRefresh : ℚ
deriving DecidableEq

/-- `ServerList.__init__` with its default arguments. -/
def ServerList.initDefault : ServerList :=
  { host := "master.unvanquished.net", port := 27950, maxServers := 512,
    updateTime := 60, refreshTime := 1, servers := [], lastUpdate := 0,
    lastUpdateError := none, lastRefresh := 0 }

/-- `R_GET_SERVERS = QUERY_PREFIX + b"getserversResponse" + RECORD_SEP`,
as byte values (the record separator `b"\x5c"` is byte 92). -/
def rGetServers : List Nat := [255, 255, 255, 255] ++ "getserversResponse".data.map Char.toNat ++ [92]

/-- The record loop of `ServerList.query_addresses`: each 7-byte
record is four IPv4 octets, a big-endian port (`(port0 << 8) + port1`)
and a separator byte that must be 92. -/
def qAddrRecords : List Nat → Except String (List (String × Nat))
  | [] => .ok []
  | ip0 :: ip1 :: ip2 :: ip3 :: port0 :: port1 :: sep :: rest =>
    if sep ≠ 92 then .error "unexpected separator byte"
    else
      match qAddrRecords rest with
      | .error e => .error e
      | .ok tail =>
        .ok ((toString ip0 ++ "." ++ toString ip1 ++ "." ++ toString ip2 ++ "." ++ toString ip3,
              port0 * 256 + port1) :: tail)
  | _ => .error "incomplete record"

/-- `ServerList.query_addresses` as a pure decoder of the received
datagram; `con.recv(n)` truncates the datagram to the buffer size
`len(R_GET_SERVERS) + 7 * max_servers`. -/
def queryAddresses (maxServers : Nat) (datagram : List Nat) : Except String (List (String × Nat)) :=
  let response := datagram.take (rGetServers.length + 7 * maxServers)
  if response = [] then .error "no response"
  else if ¬ rGetServers.isPrefixOf response then .error "bad response header"
  else
    let payload := response.drop rGetServers.length
    if payload.length % 7 ≠ 0 then .error "payload has unexpected size"
    else qAddrRecords payload

/-- One step of `set.update`: a fresh `Server(host, port)` is inserted
only when no member compares equal (`Server.__eq__` on host and port);
an existing member is kept untouched. -/
def addServerIfNew (ss : List Server) (addr : String × Nat) : List Server :=
  if ss.any (fun s => decide (s.host = addr.1 ∧ s.port = addr.2)) then ss
  else ss ++ [Server.init addr.1 addr.2]

/-- `self._servers.update(Server(host, port) for host, port in ...)`. -/
def serversUpdate (ss : List Server) (addrs : List (String × Nat)) : List Server :=
  addrs.foldl addServerIfNew ss

/-- `ServerList.refresh_servers`: poll every known server (the thread
pool outcome for the server at `(h, p)` is `elapsed h p` / `resp h p`)
and then advance `_last_refresh` — all of it only when the set is
non-empty. -/
def ServerList.refreshServers (sl : ServerList) (now : ℚ)
    (elapsed : String → Nat → ℚ) (resp : String → Nat → Option (List Char)) : ServerList :=
  if sl.servers = [] then sl
  else
    { sl with
      servers := sl.servers.map
        (fun s => s.refreshOrReset now (elapsed s.host s.port) (resp s.host s.port)),
      lastRefresh := now }

/-- `ServerList.update_servers`: `set.update` consumes the
`query_addresses` generator lazily, so the addresses yielded before a
failure (`yielded`) are merged even when the query then raises
(`err = some e`); `_last_update` is assigned only after the whole
query has succeeded, and only then are the servers refreshed. -/
def ServerList.updateServers (sl : ServerList) (now : ℚ)
    (yielded : List (String × Nat)) (err : Option String)
    (elapsed : String → Nat → ℚ) (resp : String → Nat → Option (List Char)) :
    ServerList × Option String :=
  let sl' := { sl with servers := serversUpdate sl.servers yielded }
  match err with
  | some e => (sl', some e)
  | none => (({ sl' with lastUpdate := now }).refreshServers now elapsed resp, none)

/-- `ServerList.try_update_servers`: catch the failure and record the
error string (for log deduplication), clearing it on success. -/
def ServerList.tryUpdateServers (sl : ServerList) (now : ℚ)
    (yielded : List (String × Nat)) (err : Option String)
    (elapsed : String → Nat → ℚ) (resp : String → Nat → Option (List Char)) : ServerList :=
  match sl.updateServers now yielded err elapsed resp with
  | (sl', none) => { sl' with lastUpdateError := none }
  | (sl', some e) => { sl' with lastUpdateError := some e }

/-- `server.age < bound` on the infinity-aware age. -/
def ageLt (a : Option ℚ) (bound : ℚ) : Bool :=
  match a with
  | none => false
  | some q => decide (q < bound)

/-- `ServerList.online` (its body, after the `_check_refresh` sweeps
have already run). -/
def ServerList.onlineBody (sl : ServerList) (now : ℚ) : Bool :=
  if sl.servers = [] then false
  else if ¬ sl.servers.any (fun s => ageLt (s.age now) (3 / 2 * sl.refreshTime)) then false
  else true

/-- Float order on infinity-aware pings: `none` (infinity) is the
largest value. -/
def pingLe : Option ℚ → Option ℚ → Bool
  | _, none => true
  | none, some _ => false
  | some a, some b => decide (a ≤ b)

/-- `ServerList._ranking`: the sort key
`(-server.num_playing, -server.num_spectating, server.ping)`. -/
def rankKey (now : ℚ) (s : Server) : Int × Int × Option ℚ :=
  (-(s.numPlaying : Int), -(s.numSpectating : Int), s.pingAt now)

/-- Lexicographic comparison of ranking keys, as Python compares the
key tuples. -/
def keyLe (x y : Int × Int × Option ℚ) : Bool :=
  if x.1 ≠ y.1 then decide (x.1 < y.1)
  else if x.2.1 ≠ y.2.1 then decide (x.2.1 < y.2.1)
  else pingLe x.2.2 y.2.2

/-- Stable insertion: place `a` before the first element it compares
`≤` to, so earlier elements of equal key stay first, as Python's
stable `sorted` does. -/
def insertRanked (le : Server → Server → Bool) (a : Server) : List Server → List Server
  | [] => [a]
  | b :: rest => if le a b then a :: b :: rest else b :: insertRanked le a rest

/-- `sorted(servers, key=self._ranking)`. -/
def sortRank (now : ℚ) : List Server → List Server
  | [] => []
  | a :: rest =>
    insertRanked (fun x y => keyLe (rankKey now x) (rankKey now y)) a (sortRank now rest)

/-- The `continue` checks of the `ServerList.filter` selection loop:
whether `server` is kept. -/
def passesFilter (now : ℚ) (onlyResponsive : Bool) (maxPing : Option ℚ)
    (minPlayers minPlaying : Nat) (s : Server) : Bool :=
  if onlyResponsive && !s.responsive then false
  else if (match maxPing with
           | some mp => !pingLe (s.pingAt now) (some mp)
           | none => false) then false
  else if s.numPlayers < minPlayers then false
  else if s.numPlaying < minPlaying then false
  else true

/-- The `selected` accumulation loop of `ServerList.filter`, with the
early `break` as soon as `len(selected) >= max_servers`. -/
def selectCapped (chk : Server → Bool) (cap : Option Nat) :
    List Server → List Server → List Server
  | [], acc => acc
  | s :: rest, acc =>
    if chk s then
      let acc' := acc ++ [s]
      match cap with
      | some n => if n ≤ acc'.length then acc' else selectCapped chk cap rest acc'
      | none => selectCapped chk cap rest acc'
    else selectCapped chk cap rest acc

/-- `ServerList.filter` (its body, after the `_check_refresh` sweeps
have already run): select, sort by rank, then slice to the cap. -/
def ServerList.filterBody (sl : ServerList) (now : ℚ) (onlyResponsive : Bool)
    (maxServers : Option Nat) (maxPing : Option ℚ) (minPlayers minPlaying : Nat) :
    List Server :=
  let selected :=
    selectCapped (passesFilter now onlyResponsive maxPing minPlayers minPlaying)
      maxServers sl.servers []
  let sorted := sortRank now selected
  match maxServers with
  | none => sorted
  | some n => sorted.take n

/-- Concrete low-ranked server for counterexamples: responsive, no
players. -/
def cexServerA : Server := { Server.init "a" 1 with config := some [("k", "v")] }

/-- Concrete high-ranked server for counterexamples: responsive, two
humans on team A. -/
def cexServerB : Server := { Server.init "b" 2 with config := some [("B", "--"), ("P", "11")] }

/-- Registry whose iteration order visits the low-ranked server
first. -/
def cexList : ServerList := { ServerList.initDefault with servers := [cexServerA, cexServerB] }

theorem selectCapped_eq_take (chk : Server → Bool) (m : Nat) (ls : List Server) :
    ∀ acc : List Server, acc.length < m →
      selectCapped chk (some m) ls acc = acc ++ (ls.filter chk).take (m - acc.length) := by
  induction ls with
  | nil => intro acc _; simp [selectCapped]
  | cons s rest ih =>
    intro acc h
    by_cases hc : chk s
    · by_cases hm : m ≤ acc.length + 1
      · have h1 : m - acc.length = 1 := by omega
        simp [selectCapped, hc, hm, List.filter_cons, h1, List.length_append]
      · have h2 : (acc ++ [s]).length < m := by
          simp only [List.length_append, List.length_cons, List.length_nil]
          omega
        have h3 := ih (acc ++ [s]) h2
        have h4 : m - acc.length = (m - (acc.length + 1)) + 1 := by omega
        simp only [List.length_append, List.length_cons, List.length_nil] at h3
        simp [selectCapped, hc, hm, h3, List.filter_cons, h4, List.take_succ_cons,
          List.length_append, List.append_assoc]
    · have h3 := ih acc h
      simp [selectCapped, hc, h3, List.filter_cons]

/-- Claim C1 (amended): with a `max_servers` cap `n`, `filter` returns
the rank-sorted list of the first `n` servers in iteration order that
pass the other filters — the selection loop breaks once `n` servers
are collected, and the final slice to `n` elements is then a no-op —
rather than the top `n` by rank among all passing servers. -/
theorem filterBody_cap_sorts_first_passing (sl : ServerList) (now : ℚ)
    (onlyResponsive : Bool) (maxPing : Option ℚ) (minPlayers minPlaying n : Nat) :
    sl.filterBody now onlyResponsive (some n) maxPing minPlayers minPlaying
      = (sortRank now
          ((sl.servers.filter
              (passesFilter now onlyResponsive maxPing minPlayers minPlaying)).take n)).take n := by
  cases n with
  | zero => simp [ServerList.filterBody]
  | succ k =>
    have h := selectCapped_eq_take
      (passesFilter now onlyResponsive maxPing minPlayers minPlaying) (k + 1)
      sl.servers [] (by simp)
    simp only [ServerList.filterBody, h, List.nil_append, List.length_nil, Nat.sub_zero]

/-- Claim C1 counterexample: in the two-server registry `cexList` the
busy server is visited second, so `filter` with a cap of 1 returns the
idle server — not the first element of the rank-sorted list of all
passing servers, as the claim states. -/
theorem filterBody_cap_not_top_ranked :
    cexList.filterBody 0 true (some 1) none 0 0
      ≠ (sortRank 0 (cexList.servers.filter (passesFilter 0 true none 0 0))).take 1 := by
  decide

theorem refresh_sets_lastRefresh_iff (s : Server) (now elapsed : ℚ)
    (resp : Option (List Char)) :
    ((s.refresh now elapsed resp).2 = none ∧ (s.refresh now elapsed resp).1.lastRefresh = now)
      ∨ ((s.refresh now elapsed resp).2 ≠ none
          ∧ (s.refresh now elapsed resp).1.lastRefresh = s.lastRefresh) := by
  cases resp with
  | none => right; simp [Server.refresh]
  | some response =>
    by_cases h0 : response = []
    · right; simp [Server.refresh, h0]
    · by_cases h1 : rGetStatus.isPrefixOf response
      · cases hf : firstLine (response.drop rGetStatus.length) with
        | none => right; simp [Server.refresh, h0, h1, hf]
        | some sec =>
          by_cases h2 : (splitSep sec).length % 2 = 1
          · right; simp [Server.refresh, h0, h1, hf, h2]
          · left; simp [Server.refresh, h0, h1, hf, h2]
      · right; simp [Server.refresh, h0, h1]

/-- Claim C3 (amended): `Server._last_refresh` is advanced to the
attempt time exactly when the refresh succeeds; on a transport or
decode failure — in `refresh` as well as in `refresh_or_reset` — the
timestamp is left unchanged, so it records the last *successful*
refresh. -/
theorem lastRefresh_advances_only_on_success (s : Server) (now elapsed : ℚ)
    (resp : Option (List Char)) :
    ((s.refresh now elapsed resp).2 = none →
        (s.refresh now elapsed resp).1.lastRefresh = now
          ∧ (s.refreshOrReset now elapsed resp).lastRefresh = now)
      ∧ ((s.refresh now elapsed resp).2 ≠ none →
        (s.refresh now elapsed resp).1.lastRefresh = s.lastRefresh
          ∧ (s.refreshOrReset now elapsed resp).lastRefresh = s.lastRefresh) := by
  rcases hr : s.refresh now elapsed resp with ⟨s', err⟩
  have key := refresh_sets_lastRefresh_iff s now elapsed resp
  rw [hr] at key
  cases err with
  | none =>
    rcases key with ⟨_, hlr⟩ | ⟨hne, _⟩
    · refine ⟨fun _ => ⟨hlr, ?_⟩, fun hne => absurd rfl hne⟩
      simpa [Server.refreshOrReset, hr] using hlr
    · exact absurd rfl hne
  | some e =>
    rcases key with ⟨hnone, _⟩ | ⟨_, hlr⟩
    · exact absurd hnone (by simp)
    · refine ⟨fun h => by simp at h, fun _ => ⟨hlr, ?_⟩⟩
      simpa [Server.refreshOrReset, hr] using hlr

/-- Claim C3 witness: a timed-out attempt errors and leaves the
timestamp at its old value. -/
theorem lastRefresh_advances_only_on_success_witness :
    ((Server.init "h" 1).refreshOrReset 100 0 none).lastRefresh = 0 :=
  ((lastRefresh_advances_only_on_success (Server.init "h" 1) 100 0 none).2
    (by decide)).2

/-- Claim C3 counterexample: a timed-out poll attempt at time 100
leaves `_last_refresh` at 0 instead of advancing it to the attempt
time, refuting the claim that the timestamp advances regardless of
outcome. -/
theorem lastRefresh_not_advanced_on_failure :
    ((Server.init "cex" 7).refreshOrReset 100 0 none).lastRefresh = 0 ∧ (0 : ℚ) ≠ 100 := by
  constructor
  · decide
  · decide

/-- Claim C2 (amended): `ServerList._last_update` advances to the
sweep time exactly when the master query succeeds; when any part of it
fails the timestamp is left unchanged, so a subsequent staleness check
queries the master again. -/
theorem lastUpdate_advances_only_on_success (sl : ServerList) (now : ℚ)
    (yielded : List (String × Nat)) (err : Option String)
    (elapsed : String → Nat → ℚ) (resp : String → Nat → Option (List Char)) :
    (err = none →
        (sl.updateServers now yielded err elapsed resp).1.lastUpdate = now
          ∧ (sl.tryUpdateServers now yielded err elapsed resp).lastUpdate = now)
      ∧ (∀ e, err = some e →
        (sl.updateServers now yielded err elapsed resp).1.lastUpdate = sl.lastUpdate
          ∧ (sl.tryUpdateServers now yielded err elapsed resp).lastUpdate = sl.lastUpdate) := by
  cases err with
  | none =>
    refine ⟨fun _ => ⟨?_, ?_⟩, fun e he => by simp at he⟩ <;>
      simp only [ServerList.updateServers, ServerList.tryUpdateServers,
        ServerList.refreshServers] <;> split <;> simp
  | some e =>
    refine ⟨fun h => by simp at h, fun e' _ => ⟨?_, ?_⟩⟩ <;>
      simp [ServerList.updateServers, ServerList.tryUpdateServers]

/-- Claim C2 witness: a failing sweep leaves the timestamp at its old
value. -/
theorem lastUpdate_advances_only_on_success_witness :
    (ServerList.initDefault.tryUpdateServers 100 [] (some "no response")
        (fun _ _ => 0) (fun _ _ => none)).lastUpdate = 0 :=
  ((lastUpdate_advances_only_on_success ServerList.initDefault 100 [] (some "no response")
      (fun _ _ => 0) (fun _ _ => none)).2 "no response" rfl).2

/-- Claim C2 counterexample: a failing master query at time 100 leaves
`_last_update` at 0, refuting the claimed unconditional advance. -/
theorem lastUpdate_not_advanced_on_failure :
    (ServerList.initDefault.tryUpdateServers 100 [] (some "no response")
        (fun _ _ => 0) (fun _ _ => none)).lastUpdate = 0 ∧ (0 : ℚ) ≠ 100 := by
  constructor
  · decide
  · decide

/-- Server carrying the spec's first player/bot example fields. -/
def cexStatsServer1 : Server :=
  { Server.init "s1" 1 with config := some [("B", "----"), ("P", "0121")] }

/-- Server carrying the spec's second player/bot example fields. -/
def cexStatsServer2 : Server :=
  { Server.init "s2" 2 with config := some [("B", "x---"), ("P", "1--2")] }

/-- Claim C4 counterexample: the slot table applied to skill `"----"`
and team `"0121"` puts humans on team A at indices 1 and 3, so there
are 2 team-A humans, not 1; and for skill `"x---"` with team `"1--2"`
the slot at index 3 has skill `-`, making it a team-B human, not a
team-B bot. Both claimed tuples are refuted. -/
theorem player_stats_examples_refuted :
    ¬ (cexStatsServer1.playerStats = (1, 1, 1, 0, 0)
        ∧ cexStatsServer2.playerStats = (0, 0, 0, 1, 1)) := by
  decide

/-- Claim C4 (amended): per the index-aligned slot table, skill
`"----"` with team `"0121"` yields (1 spectator, 2 team-A humans, 1
team-B human, 0 team-A bots, 0 team-B bots), and skill `"x---"` with
team `"1--2"` yields (0 spectators, 0 team-A humans, 1 team-B human,
1 team-A bot, 0 team-B bots). -/
theorem player_stats_examples :
    cexStatsServer1.playerStats = (1, 2, 1, 0, 0)
      ∧ cexStatsServer2.playerStats = (0, 0, 1, 1, 0) := by
  decide

/-- Claim C5: a failed probe (`register(None)`) empties the whole
sample window at once, making the average infinite, while the all-time
minimum — tracked separately — is never touched by a clear: a fresh
tracker that recorded `s` and then a failure still reports minimum
`s`. -/
theorem failure_clears_window_not_min (d s now1 now2 now3 : ℚ) (p : Ping) :
    (((p.register now1 (some s)).register now2 none).mvavg now3 = none)
      ∧ ((((Ping.init d).register now1 (some s)).register now2 none).min = some s)
      ∧ (p.register now2 none).min = p.min
      ∧ (p.register now2 none).reg = [] := by
  refine ⟨?_, ?_, rfl, rfl⟩
  · simp [Ping.register, Ping.mvavg, Ping.clearOld]
  · simp [Ping.init, Ping.register, minInf]

theorem drop_length_sub_one_eq_getLast :
    ∀ (l : List (ℚ × ℚ)) (x : ℚ × ℚ), l.getLast? = some x → l.drop (l.length - 1) = [x]
  | [], x, h => by simp at h
  | [a], x, h => by
    simp only [List.getLast?_singleton, Option.some.injEq] at h
    simp [h]
  | a :: b :: t, x, h => by
    have ih := drop_length_sub_one_eq_getLast (b :: t) x (by
      simpa [List.getLast?_cons_cons] using h)
    simpa [List.length_cons] using ih

/-- Claim C6: window eviction never empties a non-empty record list:
when every sample is older than the trailing window exactly the most
recent record is retained, and the moving average over a single stale
sample is that sample's value, not infinity. -/
theorem eviction_keeps_latest (p : Ping) (now : ℚ) :
    (p.reg ≠ [] → (p.clearOld now).reg ≠ [])
      ∧ ((∀ e ∈ p.reg, e.1 < now - p.duration) →
          ∀ l, p.reg.getLast? = some l → (p.clearOld now).reg = [l])
      ∧ (∀ t s, p.reg = [(t, s)] → t < now - p.duration → p.mvavg now = some s) := by
  refine ⟨?_, ?_, ?_⟩
  · intro hne
    have hlen0 : p.reg.length ≠ 0 := by simpa using hne
    have htk : p.numOutdated now ≤ p.reg.length :=
      List.Sublist.length_le (List.takeWhile_sublist _)
    unfold Ping.clearOld
    split_ifs with hA hB hC
    · exact hne
    · exact hne
    · intro hcon
      have hl := congrArg List.length hcon
      simp only [List.length_drop, List.length_nil] at hl
      omega
    · intro hcon
      have hl := congrArg List.length hcon
      simp only [List.length_drop, List.length_nil] at hl
      omega
  · intro hall l hl
    have hne : p.reg ≠ [] := by
      intro hcon; rw [hcon] at hl; simp at hl
    have hlen : p.reg.length ≠ 0 := by simpa using hne
    have htw : p.numOutdated now = p.reg.length := by
      unfold Ping.numOutdated
      rw [congrArg List.length (List.takeWhile_eq_self_iff.mpr ?_)]
      intro a ha
      simpa using hall a ha
    unfold Ping.clearOld
    rw [if_neg hne, if_neg (by omega), if_pos (by omega)]
    exact drop_length_sub_one_eq_getLast p.reg l hl
  · intro t s hreg hstale
    simp [Ping.mvavg, Ping.clearOld, Ping.numOutdated, hreg, hstale]

/-- Claim C6 witness: one sample of 1/20 recorded at time 0 in a
60-second window still averages to 1/20 at time 100. -/
theorem eviction_keeps_latest_witness :
    ((Ping.init 60).register 0 (some (1/20))).mvavg 100 = some (1/20) :=
  (eviction_keeps_latest ((Ping.init 60).register 0 (some (1/20))) 100).2.2 0 (1/20)
    (by simp [Ping.init, Ping.register]) (by norm_num [Ping.init, Ping.register])

/-- A synthetic master record: four IPv4 octets and two port bytes. -/
abbrev SrvRecord := Nat × Nat × Nat × Nat × Nat × Nat

/-- The 7-byte wire encoding of a record, separator byte included. -/
def encodeRecord : SrvRecord → List Nat
  | (a, b, c, d, p0, p1) => [a, b, c, d, p0, p1, 92]

/-- The `(dotted-quad, port)` tuple a record stands for. -/
def recordAddr : SrvRecord → String × Nat
  | (a, b, c, d, p0, p1) =>
    (toString a ++ "." ++ toString b ++ "." ++ toString c ++ "." ++ toString d,
     p0 * 256 + p1)

/-- Well-formedness of a record: every byte is in range. -/
def validRecord : SrvRecord → Prop
  | (a, b, c, d, p0, p1) => a < 256 ∧ b < 256 ∧ c < 256 ∧ d < 256 ∧ p0 < 256 ∧ p1 < 256

instance : DecidablePred validRecord := by
  intro r
  rcases r with ⟨a, b, c, d, p0, p1⟩
  simp only [validRecord]
  infer_instance

/-- Concatenation of the wire encodings of a record sequence. -/
def encodeRecords : List SrvRecord → List Nat
  | [] => []
  | r :: rest => encodeRecord r ++ encodeRecords rest

theorem isPrefixOf_append_self (l t : List Nat) : l.isPrefixOf (l ++ t) = true := by
  induction l with
  | nil => simp [List.isPrefixOf]
  | cons a rest ih => simp [List.isPrefixOf, ih]

theorem encodeRecords_length (recs : List SrvRecord) :
    (encodeRecords recs).length = 7 * recs.length := by
  induction recs with
  | nil => rfl
  | cons r rest ih =>
    rcases r with ⟨a, b, c, d, p0, p1⟩
    simp [encodeRecords, encodeRecord, ih]
    omega

theorem qAddrRecords_encode (recs : List SrvRecord) :
    qAddrRecords (encodeRecords recs) = .ok (recs.map recordAddr) := by
  induction recs with
  | nil => rfl
  | cons r rest ih =>
    rcases r with ⟨a, b, c, d, p0, p1⟩
    simp [encodeRecords, encodeRecord, qAddrRecords, ih, recordAddr]

/-- Claim C7: decoding a list response made of the valid header
followed by the concatenation of `N ≤ 50` well-formed 7-byte records
yields exactly the `N` encoded `(dotted-quad, port)` tuples, in
order, with `port = byte4 * 256 + byte5`. -/
theorem query_addresses_roundtrip (recs : List SrvRecord)
    (hn : recs.length ≤ 50) (_hv : ∀ r ∈ recs, validRecord r) :
    queryAddresses 512 (rGetServers ++ encodeRecords recs)
      = .ok (recs.map recordAddr) := by
  have hlen := encodeRecords_length recs
  have hhdr : rGetServers.length = 23 := by decide
  unfold queryAddresses
  rw [List.take_of_length_le (by simp [List.length_append, hlen, hhdr]; omega)]
  rw [if_neg (by simp [rGetServers])]
  rw [if_neg (by simp [isPrefixOf_append_self])]
  rw [List.drop_left]
  rw [if_neg (by simp [hlen, Nat.mul_mod_right])]
  exact qAddrRecords_encode recs

/-- Claim C7 witness: one concrete record round-trips. -/
theorem query_addresses_roundtrip_witness :
    queryAddresses 512 (rGetServers ++ encodeRecords [((1, 2, 3, 4, 5, 6) : SrvRecord)])
      = .ok [("1.2.3.4", 1286)] :=
  query_addresses_roundtrip [(1, 2, 3, 4, 5, 6)] (by decide) (by decide)

/-- First entry in iteration order whose address equals `(h, p)` —
the member that Python set membership keeps. -/
def findServer (ss : List Server) (h : String) (p : Nat) : Option Server :=
  ss.find? (fun s => decide (s.host = h ∧ s.port = p))

theorem serversUpdate_append (addrs : List (String × Nat)) :
    ∀ ss, ∃ ex, serversUpdate ss addrs = ss ++ ex := by
  induction addrs with
  | nil => intro ss; exact ⟨[], by simp [serversUpdate]⟩
  | cons a rest ih =>
    intro ss
    have hstep : addServerIfNew ss a = ss ∨ addServerIfNew ss a = ss ++ [Server.init a.1 a.2] := by
      unfold addServerIfNew
      split_ifs <;> simp
    have hfold : serversUpdate ss (a :: rest) = serversUpdate (addServerIfNew ss a) rest := rfl
    rcases ih (addServerIfNew ss a) with ⟨ex, hex⟩
    rcases hstep with h | h
    · exact ⟨ex, by rw [hfold, hex, h]⟩
    · refine ⟨Server.init a.1 a.2 :: ex, ?_⟩
      rw [hfold, hex, h, List.append_assoc]
      rfl

/-- Claim C8: merging master sweep results into the known set keeps
every existing entry with all of its state: the first entry found for
an already-present address is unchanged by the update (the freshly
constructed `Server` for an equal address is not inserted in its
place); `Server.__eq__` holds exactly when host and port match, and
the modelled `Server.__hash__` is consistent with it. -/
theorem update_keeps_existing_entry (ss : List Server) (addrs : List (String × Nat))
    (h : String) (p : Nat) (s0 : Server) (hfind : findServer ss h p = some s0) :
    findServer (serversUpdate ss addrs) h p = some s0
      ∧ (∀ s1 s2 : Server, s1.sameAddress s2 = true ↔ (s1.host = s2.host ∧ s1.port = s2.port))
      ∧ (∀ (f : String → Nat) (s1 s2 : Server),
          s1.sameAddress s2 = true → s1.hashWith f = s2.hashWith f) := by
  refine ⟨?_, ?_, ?_⟩
  · rcases serversUpdate_append addrs ss with ⟨ex, hex⟩
    rw [hex]
    unfold findServer at hfind ⊢
    rw [List.find?_append, hfind]
    rfl
  · intro s1 s2
    unfold Server.sameAddress
    exact decide_eq_true_iff
  · intro f s1 s2 hsame
    have hs := decide_eq_true_iff.mp hsame
    unfold Server.hashWith
    rw [hs.1, hs.2]

/-- Claim C8 witness: re-discovering the address of `cexServerA` does
not replace the stored entry. -/
theorem update_keeps_existing_entry_witness :
    findServer (serversUpdate [cexServerA] [("a", 1)]) "a" 1 = some cexServerA :=
  (update_keeps_existing_entry [cexServerA] [("a", 1)] "a" 1 cexServerA (by decide)).1

/-- Claim C9: with a present configuration, any internal failure of
the player-statistics derivation — a missing `B` or `P` field or
mismatched field lengths among them — is absorbed by the `_valid_or`
decorator: `player_stats` reports the zero-filled tuple and the
derived counts report 0 instead of an exception propagating; likewise
a missing `sv_hostname` yields the address fallback and a missing
`mapname` the `"unknown"` default. -/
theorem accessors_default_on_failure (s : Server) (cfg : Config)
    (hc : s.config = some cfg) (hne : cfg ≠ []) :
    (∀ e, playerStatsChecked cfg = .error e →
        s.playerStats = (0, 0, 0, 0, 0) ∧ s.numPlayers = 0 ∧ s.numPlaying = 0
          ∧ s.numSpectating = 0)
      ∧ (cfgGet cfg "B" = none → ∃ e, playerStatsChecked cfg = .error e)
      ∧ (cfgGet cfg "P" = none → ∃ e, playerStatsChecked cfg = .error e)
      ∧ (∀ bf pf, cfgGet cfg "B" = some bf → cfgGet cfg "P" = some pf →
          bf.length ≠ pf.length → ∃ e, playerStatsChecked cfg = .error e)
      ∧ (cfgGet cfg "sv_hostname" = none → s.name = s.address)
      ∧ (cfgGet cfg "mapname" = none → s.mapName = "unknown") := by
  have htr : truthyConfig s.config = true := by simp [hc, truthyConfig, hne]
  refine ⟨?_, ?_, ?_, ?_, ?_, ?_⟩
  · intro e he
    have hps : s.playerStats = (0, 0, 0, 0, 0) := by
      simp [Server.playerStats, htr, hc, he]
    exact ⟨hps, by simp [Server.numPlayers, hps], by simp [Server.numPlaying, hps],
      by simp [Server.numSpectating, hps]⟩
  · intro hb
    exact ⟨"KeyError B", by simp [playerStatsChecked, hb]⟩
  · intro hp
    cases hb : cfgGet cfg "B" with
    | none => exact ⟨"KeyError B", by simp [playerStatsChecked, hb]⟩
    | some bf => exact ⟨"KeyError P", by simp [playerStatsChecked, hb, hp]⟩
  · intro bf pf hb hp hlen
    exact ⟨"Lengths of bot and player states do not match.",
      by simp [playerStatsChecked, hb, hp, hlen]⟩
  · intro hh
    simp [Server.name, htr, hc, hh]
  · intro hm
    simp [Server.mapName, htr, hc, hm]

/-- Claim C9 witness: a configuration without `B`/`P` fields reports
the zero-filled statistics and the address fallback name. -/
theorem accessors_default_on_failure_witness :
    cexServerA.playerStats = (0, 0, 0, 0, 0) ∧ cexServerA.name = cexServerA.address := by
  have h := accessors_default_on_failure cexServerA [("k", "v")] rfl (by decide)
  rcases h.2.1 (by decide) with ⟨e, he⟩
  exact ⟨(h.1 e he).1, h.2.2.2.2.1 (by decide)⟩

/-- Registry with a single never-successfully-refreshed server. -/
def cexNeverList : ServerList :=
  { ServerList.initDefault with servers := [Server.init "x" 9] }

/-- Claim C10: a server whose refresh never succeeded (timestamp
still 0) has infinite age rather than the elapsed time since epoch
zero, and a registry whose entries were all never successfully
refreshed reports `online()` false — including immediately after a
poll sweep in which every refresh attempt failed. -/
theorem online_false_when_never_refreshed (sl : ServerList) (now now2 : ℚ)
    (elapsed : String → Nat → ℚ) (resp : String → Nat → Option (List Char))
    (hz : ∀ s ∈ sl.servers, s.lastRefresh = 0)
    (hfail : ∀ s ∈ sl.servers,
      (s.refresh now (elapsed s.host s.port) (resp s.host s.port)).2 ≠ none) :
    (∀ s ∈ sl.servers, s.age now2 = none)
      ∧ sl.onlineBody now2 = false
      ∧ (sl.refreshServers now elapsed resp).onlineBody now2 = false := by
  have hage : ∀ s ∈ sl.servers, s.age now2 = none := by
    intro s hs
    simp [Server.age, hz s hs]
  refine ⟨hage, ?_, ?_⟩
  · by_cases hemp : sl.servers = []
    · simp [ServerList.onlineBody, hemp]
    · have hany : sl.servers.any (fun s => ageLt (s.age now2) (3 / 2 * sl.refreshTime)) = false := by
        rw [List.any_eq_false]
        intro s hs
        simp [hage s hs, ageLt]
      simp [ServerList.onlineBody, hemp, hany]
  · by_cases hemp : sl.servers = []
    · have : sl.refreshServers now elapsed resp = sl := by
        simp [ServerList.refreshServers, hemp]
      rw [this]
      simp [ServerList.onlineBody, hemp]
    · have hzero : ∀ s ∈ sl.servers,
          (s.refreshOrReset now (elapsed s.host s.port) (resp s.host s.port)).lastRefresh = 0 := by
        intro s hs
        rcases hr : s.refresh now (elapsed s.host s.port) (resp s.host s.port) with ⟨s', err⟩
        have key := refresh_sets_lastRefresh_iff s now (elapsed s.host s.port)
          (resp s.host s.port)
        rw [hr] at key
        cases err with
        | none => exact absurd (by rw [hr]) (fun hcon => hfail s hs hcon)
        | some e =>
          rcases key with ⟨hcon, _⟩ | ⟨_, hlr⟩
          · simp at hcon
          · have : (s.refreshOrReset now (elapsed s.host s.port) (resp s.host s.port)).lastRefresh
                = s'.lastRefresh := by
              simp [Server.refreshOrReset, hr]
            rw [this]
            simpa [hz s hs] using hlr
      have hmap : sl.refreshServers now elapsed resp
          = { sl with
              servers := sl.servers.map
                (fun s => s.refreshOrReset now (elapsed s.host s.port) (resp s.host s.port)),
              lastRefresh := now } := by
        simp [ServerList.refreshServers, hemp]
      rw [hmap]
      have hemp2 : sl.servers.map
          (fun s => s.refreshOrReset now (elapsed s.host s.port) (resp s.host s.port)) ≠ [] := by
        simpa using hemp
      have hany : (sl.servers.map
            (fun s => s.refreshOrReset now (elapsed s.host s.port) (resp s.host s.port))).any
            (fun s => ageLt (s.age now2) (3 / 2 * sl.refreshTime)) = false := by
        rw [List.any_eq_false]
        intro s' hs'
        rcases List.mem_map.mp hs' with ⟨s, hs, rfl⟩
        simp [Server.age, hzero s hs, ageLt]
      simp [ServerList.onlineBody, hemp2, hany]

/-- Claim C10 witness: one never-refreshed server, polled with a
timeout at time 5, still reports the registry offline. -/
theorem online_false_when_never_refreshed_witness :
    (cexNeverList.refreshServers 5 (fun _ _ => 0) (fun _ _ => none)).onlineBody 5 = false :=
  (online_false_when_never_refreshed cexNeverList 5 5 (fun _ _ => 0) (fun _ _ => none)
    (by decide) (by decide)).2.2

end Unvtray
